import Mathlib

/-!
Verification development for the commercial-loan simulation engine
(`loan_calculators`): the payment calendar (`payment_calendar.py`), the
equal-principal amortizer (`equal_principal_loan.py`) and the
equal-installment amortizer (`equal_installment_loan.py`).

Python `Decimal` values are modelled as exact rationals; the source's
`quantize(Decimal("0.01"))` with the ambient `ROUND_HALF_UP` context is
modelled by `quantizeCents` (round half away from zero, to cents).
Calendar dates are modelled by a Gregorian `Date` structure whose
`toOrdinal` matches Python's `date.toordinal` (0001-01-01 has ordinal 1),
so `date.weekday()` is `(toOrdinal + 6) % 7` with Monday = 0.
The `while` loop deferring a payment past non-business days is modelled
with explicit fuel; exhausting the fuel is reported as an error, standing
for a non-terminating adjustment loop.
-/

/-- Rounding of a rational to two fractional digits, half away from zero:
the model of `Decimal.quantize(Decimal("0.01"))` under `ROUND_HALF_UP`. -/
def quantizeCents (q : ℚ) : ℚ :=
  if 0 ≤ q then ((⌊q * 100 + 1/2⌋ : ℤ) : ℚ) / 100
  else -(((⌊-q * 100 + 1/2⌋ : ℤ) : ℚ) / 100)

/-- A rational is an exact amount of cents. -/
def IsCents (q : ℚ) : Prop := ∃ m : ℤ, q = (m : ℚ) / 100

/-- Gregorian calendar date, proleptic, as used by Python `datetime.date`. -/
structure Date where
  year : ℕ
  month : ℕ
  day : ℕ
deriving DecidableEq

def isLeapYear (y : ℕ) : Bool :=
  (y % 4 == 0 && y % 100 != 0) || y % 400 == 0

def daysInMonth (y m : ℕ) : ℕ :=
  if m = 2 then (if isLeapYear y then 29 else 28)
  else if m = 4 ∨ m = 6 ∨ m = 9 ∨ m = 11 then 30
  else 31

def daysBeforeYear (y : ℕ) : ℕ :=
  365 * (y - 1) + (y - 1) / 4 - (y - 1) / 100 + (y - 1) / 400

def daysBeforeMonth (y m : ℕ) : ℕ :=
  ((List.range (m - 1)).map (fun i => daysInMonth y (i + 1))).sum

/-- Python `date.toordinal`: 0001-01-01 has ordinal 1. -/
def Date.toOrdinal (d : Date) : ℕ :=
  daysBeforeYear d.year + daysBeforeMonth d.year d.month + d.day

/-- Python `date.weekday`: Monday = 0, ..., Sunday = 6. -/
def Date.weekday (d : Date) : ℕ :=
  (d.toOrdinal + 6) % 7

/-- Model of `dateutil.relativedelta(months := n)` addition: advance by
calendar months, clamping the day to the length of the target month. -/
def Date.addMonths (d : Date) (n : ℕ) : Date :=
  let t := d.month - 1 + n
  let y := d.year + t / 12
  let m := t % 12 + 1
  ⟨y, m, min d.day (daysInMonth y m)⟩

/-- Model of `scheduled_date.replace(day := target)` with the source's
`except ValueError` fallback `scheduled_date + relativedelta(day := 31)`
(clamp to the last day of the month). -/
def setDayClamped (d : Date) (target : ℕ) : Date :=
  if target ≤ daysInMonth d.year d.month then ⟨d.year, d.month, target⟩
  else ⟨d.year, d.month, daysInMonth d.year d.month⟩

/-- Model of `date + timedelta(days := 1)`. -/
def Date.nextDay (d : Date) : Date :=
  if d.day < daysInMonth d.year d.month then ⟨d.year, d.month, d.day + 1⟩
  else if d.month < 12 then ⟨d.year, d.month + 1, 1⟩
  else ⟨d.year + 1, 1, 1⟩

/-- Model of the source's deferral loop
`while scheduled_date.weekday() >= 5 or scheduled_date in holiday_calendar`,
with fuel; `none` stands for a non-terminating loop. -/
def adjustToBusinessDay (isHol : Date → Bool) : ℕ → Date → Option Date
  | 0, d => if 5 ≤ d.weekday ∨ isHol d then none else some d
  | f + 1, d =>
    if 5 ≤ d.weekday ∨ isHol d then adjustToBusinessDay isHol f d.nextDay
    else some d

/-- One generated payment period of `PaymentCalendar.generate_schedule`:
the entries of `payment_dates`, `accrual_days` and
`turkish_banking_accrual_days` for one installment number. -/
structure PaymentPeriod where
  installment : ℕ
  payment_date : Date
  accrual_days : ℤ
  banking_days : ℕ
deriving DecidableEq

/-- The loop body of `PaymentCalendar.generate_schedule`: `nominalBase` is
the nominal cursor (`nominal_base_date`), `accrualStart` the previous
payment date (initially the start date). -/
def genPeriods (isHol : Date → Bool) (fuel freqM targetDay bankDays : ℕ) :
    ℕ → ℕ → Date → Date → Option (List PaymentPeriod)
  | 0, _, _, _ => some []
  | n + 1, k, nominalBase, accrualStart =>
    let sd := setDayClamped (nominalBase.addMonths freqM) targetDay
    match adjustToBusinessDay isHol fuel sd with
    | none => none
    | some pd =>
      match genPeriods isHol fuel freqM targetDay bankDays n (k + 1)
          (nominalBase.addMonths freqM) pd with
      | none => none
      | some rest =>
        some ({ installment := k, payment_date := pd,
                accrual_days := (pd.toOrdinal : ℤ) - (accrualStart.toOrdinal : ℤ),
                banking_days := bankDays } :: rest)

/-- The `relativedelta` month step selected at the top of
`generate_schedule`; `none` models the raised `ValueError`. -/
def relativeDeltaMonths (freq : String) : Option ℕ :=
  if freq = "1m" then some 1
  else if freq = "3m" then some 3
  else if freq = "6m" then some 6
  else none

/-- `PaymentCalendar._frequency_to_days`; `none` models the raised
`ValueError`. -/
def frequencyToDays (freq : String) : Option ℕ :=
  if freq = "1m" then some 30
  else if freq = "3m" then some 90
  else if freq = "6m" then some 180
  else none

/-- `PaymentCalendar.generate_schedule` for a start date, term in months,
frequency string and non-business-day predicate. -/
def generateSchedule (startDate : Date) (termInMonths : ℕ) (freq : String)
    (isHol : Date → Bool) (fuel : ℕ) : Except String (List PaymentPeriod) :=
  match relativeDeltaMonths freq, frequencyToDays freq with
  | some fm, some fd =>
    match genPeriods isHol fuel fm startDate.day fd (termInMonths * 30 / fd) 1
        startDate startDate with
    | some l => .ok l
    | none => .error "AdjustmentFuelExhausted"
  | _, _ => .error "InvalidFrequency"

/-- The nominal cursor after k frequency steps (`nominal_base_date` at the
start of iteration k + 1), advanced from the previous nominal position and
never from an adjusted payment date. -/
def nominalCursor (startDate : Date) (freqM : ℕ) : ℕ → Date
  | 0 => startDate
  | k + 1 => (nominalCursor startDate freqM k).addMonths freqM

/-- The nominal anchor of period k: the cursor position with the day set
back to the start date's day-of-month (clamped), before any business-day
adjustment. -/
def nominalAnchor (startDate : Date) (freqM k : ℕ) : Date :=
  setDayClamped (nominalCursor startDate freqM k) startDate.day

/-- One row of an amortization schedule, as emitted by
`calculate_schedule` of either amortizer. -/
structure Row where
  installment_number : ℕ
  payment_date : Date
  accrual_days : ℤ
  principal_payment : ℚ
  interest_payment : ℚ
  commission_payment : ℚ
  bsmv : ℚ
  installment_amount : ℚ
  remaining_principal : ℚ
deriving DecidableEq

/-- The upfront commission row (installment number 0) appended by both
amortizers when `commission > 0`. -/
def commissionRow (principal commissionRate bsmvRate : ℚ) (startDate : Date) : Row :=
  let ca := quantizeCents (principal * commissionRate)
  let cb := quantizeCents (ca * bsmvRate)
  { installment_number := 0, payment_date := startDate, accrual_days := 0,
    principal_payment := 0, interest_payment := 0, commission_payment := ca,
    bsmv := cb, installment_amount := quantizeCents (ca + cb),
    remaining_principal := quantizeCents principal }

/-- State of an `EqualPrincipalLoan` object after `__init__`: the input
terms together with the products of its `PaymentCalendar`
(`payment_dates`, `actual_accrual_days`, and their count). -/
structure EqualPrincipalLoan where
  principal : ℚ
  monthly_interest_rate : ℚ
  commission : ℚ
  start_date : Date
  payment_frequency : String
  bsmv_rate : ℚ
  use_variable_accrual_days : Bool
  num_payments : ℕ
  payment_dates : ℕ → Date
  actual_accrual_days : ℕ → ℤ

/-- The `fixed_accrual_days` value computed in
`EqualPrincipalLoan.__init__` from the frequency string (the source's
`else` branch maps everything other than `"1m"` and `"3m"` to 180). -/
def EqualPrincipalLoan.fixed_days (L : EqualPrincipalLoan) : ℕ :=
  if L.payment_frequency = "1m" then 30
  else if L.payment_frequency = "3m" then 90
  else 180

/-- `self.fixed_principal = self.principal / self.num_payments`,
kept unrounded. -/
def EqualPrincipalLoan.fixed_principal (L : EqualPrincipalLoan) : ℚ :=
  L.principal / (L.num_payments : ℚ)

/-- The period rate selected inside the loop of
`EqualPrincipalLoan.calculate_schedule` for installment k: actual accrual
days over 30 in variable mode, else the fixed 1/3/6 multiple. -/
def EqualPrincipalLoan.period_rate (L : EqualPrincipalLoan) (k : ℕ) : ℚ :=
  if L.use_variable_accrual_days then
    L.monthly_interest_rate * ((L.actual_accrual_days k : ℚ) / 30)
  else if L.payment_frequency = "1m" then L.monthly_interest_rate
  else if L.payment_frequency = "3m" then L.monthly_interest_rate * 3
  else L.monthly_interest_rate * 6

/-- The accrual day count written into row k by
`EqualPrincipalLoan.calculate_schedule`. -/
def EqualPrincipalLoan.row_accrual_days (L : EqualPrincipalLoan) (k : ℕ) : ℤ :=
  if L.use_variable_accrual_days then L.actual_accrual_days k
  else (L.fixed_days : ℤ)

/-- The regular row emitted for installment k of an equal-principal loan
when the running (unrounded) remaining principal is `rem`. -/
def EqualPrincipalLoan.scheduleRow (L : EqualPrincipalLoan) (k : ℕ) (rem : ℚ) : Row :=
  let interest := quantizeCents (rem * L.period_rate k)
  let tax := quantizeCents (interest * L.bsmv_rate)
  { installment_number := k, payment_date := L.payment_dates k,
    accrual_days := L.row_accrual_days k,
    principal_payment := quantizeCents L.fixed_principal,
    interest_payment := interest, commission_payment := 0, bsmv := tax,
    installment_amount := quantizeCents (L.fixed_principal + interest + tax),
    remaining_principal := quantizeCents (rem - L.fixed_principal) }

/-- The `for k in range(1, num_payments + 1)` loop of
`EqualPrincipalLoan.calculate_schedule`: the count still to run, the next
installment number, and the running unrounded remaining principal, which
is decremented by the unrounded `fixed_principal` each step. -/
def EqualPrincipalLoan.loop (L : EqualPrincipalLoan) : ℕ → ℕ → ℚ → List Row
  | 0, _, _ => []
  | n + 1, k, rem =>
    L.scheduleRow k rem :: EqualPrincipalLoan.loop L n (k + 1) (rem - L.fixed_principal)

/-- `EqualPrincipalLoan.calculate_schedule`. -/
def EqualPrincipalLoan.calculate_schedule (L : EqualPrincipalLoan) : List Row :=
  (if 0 < L.commission then
    [commissionRow L.principal L.commission L.bsmv_rate L.start_date]
  else []) ++ EqualPrincipalLoan.loop L L.num_payments 1 L.principal

/-- State of an `EqualInstallmentLoan` object after `__init__`. -/
structure EqualInstallmentLoan where
  principal : ℚ
  monthly_interest_rate : ℚ
  commission : ℚ
  start_date : Date
  payment_frequency : String
  bsmv_rate : ℚ
  num_payments : ℕ
  payment_dates : ℕ → Date
  fixed_accrual_days : ℕ → ℕ

/-- The period rate computed in `EqualInstallmentLoan.__init__` via the
calendar's `_frequency_to_days` (on an unsupported frequency the source
raises inside `__init__`, so the object never exists; the model maps that
dead case to a zero day count). -/
def EqualInstallmentLoan.init_period_rate (E : EqualInstallmentLoan) : ℚ :=
  E.monthly_interest_rate * (((frequencyToDays E.payment_frequency).getD 0 : ℚ) / 30)

/-- `self.fixed_installment`: the annuity amount T sized with the
BSMV-loaded period rate. In the model `x / 0 = 0`, which stands for the
`DivisionByZero` the source would raise when the loaded rate is zero. -/
def EqualInstallmentLoan.fixed_installment (E : EqualInstallmentLoan) : ℚ :=
  let pr := E.init_period_rate
  let prLoaded := pr + pr * E.bsmv_rate
  let w := (1 + prLoaded) ^ E.num_payments
  E.principal * prLoaded * w / (w - 1)

/-- The period rate selected inside the loop of
`EqualInstallmentLoan.calculate_schedule` (the source's `else` branch maps
everything other than `"1m"` and `"3m"` to the 6-month multiple). -/
def EqualInstallmentLoan.sched_period_rate (E : EqualInstallmentLoan) : ℚ :=
  if E.payment_frequency = "1m" then E.monthly_interest_rate
  else if E.payment_frequency = "3m" then E.monthly_interest_rate * 3
  else E.monthly_interest_rate * 6

/-- The regular row emitted for installment k of an equal-installment loan
when the running remaining principal is `rem`: the principal part is the
residual T minus interest minus BSMV. -/
def EqualInstallmentLoan.scheduleRow (E : EqualInstallmentLoan) (k : ℕ) (rem : ℚ) : Row :=
  let interest := quantizeCents (rem * E.sched_period_rate)
  let tax := quantizeCents (interest * E.bsmv_rate)
  let princ := quantizeCents (E.fixed_installment - interest - tax)
  { installment_number := k, payment_date := E.payment_dates k,
    accrual_days := (E.fixed_accrual_days k : ℤ),
    principal_payment := princ, interest_payment := interest,
    commission_payment := 0, bsmv := tax,
    installment_amount := quantizeCents (princ + interest + tax),
    remaining_principal := quantizeCents (rem - princ) }

/-- The regular-installment loop of
`EqualInstallmentLoan.calculate_schedule`: the remaining principal is
decremented by each row's rounded residual principal payment. -/
def EqualInstallmentLoan.loop (E : EqualInstallmentLoan) : ℕ → ℕ → ℚ → List Row
  | 0, _, _ => []
  | n + 1, k, rem =>
    let r := E.scheduleRow k rem
    r :: EqualInstallmentLoan.loop E n (k + 1) (rem - r.principal_payment)

/-- `EqualInstallmentLoan.calculate_schedule`. -/
def EqualInstallmentLoan.calculate_schedule (E : EqualInstallmentLoan) : List Row :=
  (if 0 < E.commission then
    [commissionRow E.principal E.commission E.bsmv_rate E.start_date]
  else []) ++ EqualInstallmentLoan.loop E E.num_payments 1 E.principal

/-- The summary returned by `calculate_average_maturity_and_all_in_rate`. -/
structure MaturitySummary where
  average_maturity_years : ℚ
  all_in_rate_percent : ℚ
deriving DecidableEq

/-- The rows a summary loop treats as regular installments
(`installment_number != 0`). -/
def regularRows (s : List Row) : List Row :=
  s.filter fun r => r.installment_number ≠ 0

/-- The rows a summary loop treats as the upfront commission row
(`installment_number == 0`). -/
def rowZeroRows (s : List Row) : List Row :=
  s.filter fun r => r.installment_number = 0

def sumBy (f : Row → ℚ) (s : List Row) : ℚ := (s.map f).sum

/-- Python `(a - b).days` on dates. -/
def dateDiffDays (a b : Date) : ℤ :=
  (a.toOrdinal : ℤ) - (b.toOrdinal : ℤ)

/-- `EqualPrincipalLoan.calculate_average_maturity_and_all_in_rate`.
The two `.error` branches model the `decimal` exceptions raised on a zero
divisor; the spec calls the first `DegenerateSchedule`. Note the
quantized maturity is what enters the all-in-rate denominator here. -/
def EqualPrincipalLoan.calculate_average_maturity_and_all_in_rate
    (L : EqualPrincipalLoan) (s : List Row) : Except String MaturitySummary :=
  let tc := sumBy (fun r => r.installment_amount) (rowZeroRows s)
  let regs := regularRows s
  let tw := sumBy (fun r => r.principal_payment * (dateDiffDays r.payment_date L.start_date : ℚ)) regs
  let tp := sumBy (fun r => r.principal_payment) regs
  let ti := sumBy (fun r => r.interest_payment) regs
  let tb := sumBy (fun r => r.bsmv) regs
  if tp = 0 then .error "DegenerateSchedule"
  else
    let yil := quantizeCents (tw / tp / 365)
    if yil * L.principal = 0 then .error "DivisionByZero"
    else .ok ⟨yil, quantizeCents ((ti + tb + tc) / (yil * L.principal) * 100)⟩

/-- `EqualInstallmentLoan.calculate_average_maturity_and_all_in_rate`.
Unlike the equal-principal version, the commission row's `bsmv` is also
accumulated into the BSMV total, and the unrounded maturity enters the
all-in-rate denominator; only the returned maturity is quantized. -/
def EqualInstallmentLoan.calculate_average_maturity_and_all_in_rate
    (E : EqualInstallmentLoan) (s : List Row) : Except String MaturitySummary :=
  let tc := sumBy (fun r => r.installment_amount) (rowZeroRows s)
  let tb := sumBy (fun r => r.bsmv) s
  let regs := regularRows s
  let tw := sumBy (fun r => (dateDiffDays r.payment_date E.start_date : ℚ) * r.principal_payment) regs
  let tp := sumBy (fun r => r.principal_payment) regs
  let ti := sumBy (fun r => r.interest_payment) regs
  if tp = 0 then .error "DegenerateSchedule"
  else
    let yilRaw := tw / tp / 365
    if yilRaw * E.principal = 0 then .error "DivisionByZero"
    else
      .ok ⟨quantizeCents yilRaw,
           quantizeCents ((ti + tb + tc) / (yilRaw * E.principal) * 100)⟩

/-- Lookup of `payment_dates[k]` in the calendar products. -/
def periodPaymentDate (ps : List PaymentPeriod) (k : ℕ) : Date :=
  ((ps.find? fun p => p.installment == k).map fun p => p.payment_date).getD ⟨1, 1, 1⟩

/-- Lookup of `accrual_days[k]` in the calendar products. -/
def periodActualDays (ps : List PaymentPeriod) (k : ℕ) : ℤ :=
  ((ps.find? fun p => p.installment == k).map fun p => p.accrual_days).getD 0

/-- Lookup of `turkish_banking_accrual_days[k]` in the calendar products. -/
def periodBankingDays (ps : List PaymentPeriod) (k : ℕ) : ℕ :=
  ((ps.find? fun p => p.installment == k).map fun p => p.banking_days).getD 0

/-- `EqualPrincipalLoan.__init__`: run the payment calendar and populate
the object; a calendar error propagates (the constructor raises). -/
def mkEqualPrincipalLoan (principal rate commission : ℚ) (startDate : Date)
    (term : ℕ) (freq : String) (bsmvRate : ℚ) (useVar : Bool)
    (isHol : Date → Bool) (fuel : ℕ) : Except String EqualPrincipalLoan :=
  (generateSchedule startDate term freq isHol fuel).map fun ps =>
    { principal := principal, monthly_interest_rate := rate,
      commission := commission, start_date := startDate,
      payment_frequency := freq, bsmv_rate := bsmvRate,
      use_variable_accrual_days := useVar, num_payments := ps.length,
      payment_dates := periodPaymentDate ps,
      actual_accrual_days := periodActualDays ps }

/-- `EqualInstallmentLoan.__init__`: run the payment calendar and populate
the object, taking `fixed_accrual_days` from the calendar's
`turkish_banking_accrual_days`. -/
def mkEqualInstallmentLoan (principal rate commission : ℚ) (startDate : Date)
    (term : ℕ) (freq : String) (bsmvRate : ℚ)
    (isHol : Date → Bool) (fuel : ℕ) : Except String EqualInstallmentLoan :=
  (generateSchedule startDate term freq isHol fuel).map fun ps =>
    { principal := principal, monthly_interest_rate := rate,
      commission := commission, start_date := startDate,
      payment_frequency := freq, bsmv_rate := bsmvRate,
      num_payments := ps.length,
      payment_dates := periodPaymentDate ps,
      fixed_accrual_days := periodBankingDays ps }

/-- The row-sum invariant claimed for every schedule row. -/
def rowSumOk (r : Row) : Prop :=
  r.installment_amount =
    r.principal_payment + r.interest_payment + r.bsmv + r.commission_payment

/-- Total of `interest_payment` over the regular rows, as the spec's
all-in-rate formula uses it. -/
def totalInterestRegular (s : List Row) : ℚ :=
  sumBy (fun r => r.interest_payment) (regularRows s)

/-- Total of the `bsmv` field over all rows, commission row included, as
the spec's all-in-rate formula uses it. -/
def totalBsmvAllRows (s : List Row) : ℚ :=
  sumBy (fun r => r.bsmv) s

/-- The unrounded weighted average maturity in years of a schedule. -/
def rawMaturityYears (start : Date) (s : List Row) : ℚ :=
  sumBy (fun r => (dateDiffDays r.payment_date start : ℚ) * r.principal_payment)
      (regularRows s) /
    sumBy (fun r => r.principal_payment) (regularRows s) / 365

/-- The upfront commission amount charged by an equal-principal loan
(zero when no commission row is emitted). -/
def EqualPrincipalLoan.upfront_commission (L : EqualPrincipalLoan) : ℚ :=
  if 0 < L.commission then quantizeCents (L.principal * L.commission) else 0

/-- The upfront commission amount charged by an equal-installment loan. -/
def EqualInstallmentLoan.upfront_commission (E : EqualInstallmentLoan) : ℚ :=
  if 0 < E.commission then quantizeCents (E.principal * E.commission) else 0

/-- The BSMV on the upfront commission of an equal-installment loan. -/
def EqualInstallmentLoan.upfront_commission_bsmv (E : EqualInstallmentLoan) : ℚ :=
  if 0 < E.commission then
    quantizeCents (quantizeCents (E.principal * E.commission) * E.bsmv_rate)
  else 0

def sampleDate : Date := ⟨2024, 1, 1⟩

/-- Equal-principal loan of 100 over 3 monthly periods at zero interest:
the fixed principal share 100/3 is not an exact cent amount. -/
def sampleEPLoanA : EqualPrincipalLoan :=
  { principal := 100, monthly_interest_rate := 0, commission := 0,
    start_date := sampleDate, payment_frequency := "1m", bsmv_rate := 1/20,
    use_variable_accrual_days := false, num_payments := 3,
    payment_dates := fun _ => sampleDate, actual_accrual_days := fun _ => 30 }

/-- The loan of spec scenario 2: 120000 at 2 percent monthly over 3 monthly
periods, no commission. -/
def sampleEPLoanB : EqualPrincipalLoan :=
  { principal := 120000, monthly_interest_rate := 1/50, commission := 0,
    start_date := sampleDate, payment_frequency := "1m", bsmv_rate := 1/20,
    use_variable_accrual_days := false, num_payments := 3,
    payment_dates := fun _ => sampleDate, actual_accrual_days := fun _ => 30 }

/-- Equal-installment loan of 1000 at 2 percent monthly for one monthly
period with a 1 percent upfront commission, paying on day 30. -/
def sampleEILoanA : EqualInstallmentLoan :=
  { principal := 1000, monthly_interest_rate := 1/50, commission := 1/100,
    start_date := sampleDate, payment_frequency := "1m", bsmv_rate := 1/20,
    num_payments := 1, payment_dates := fun _ => ⟨2024, 1, 31⟩,
    fixed_accrual_days := fun _ => 30 }

/-- Equal-installment loan of 1000 at 10 percent monthly over two monthly
periods, no commission. -/
def sampleEILoanB : EqualInstallmentLoan :=
  { principal := 1000, monthly_interest_rate := 1/10, commission := 0,
    start_date := sampleDate, payment_frequency := "1m", bsmv_rate := 1/20,
    num_payments := 2, payment_dates := fun _ => sampleDate,
    fixed_accrual_days := fun _ => 30 }

/-- Equal-principal loan with a zero-period term: no regular rows. -/
def sampleEPLoanZeroTerm : EqualPrincipalLoan :=
  { principal := 1000, monthly_interest_rate := 1/50, commission := 0,
    start_date := sampleDate, payment_frequency := "1m", bsmv_rate := 1/20,
    use_variable_accrual_days := false, num_payments := 0,
    payment_dates := fun _ => sampleDate, actual_accrual_days := fun _ => 30 }

/-- Equal-installment loan with a zero-period term: no regular rows. -/
def sampleEILoanZeroTerm : EqualInstallmentLoan :=
  { principal := 1000, monthly_interest_rate := 1/50, commission := 0,
    start_date := sampleDate, payment_frequency := "1m", bsmv_rate := 1/20,
    num_payments := 0, payment_dates := fun _ => sampleDate,
    fixed_accrual_days := fun _ => 30 }

/-- Equal-principal loan of 1000 for one monthly period at 2 percent with
a 1 percent commission, paying on day 30. -/
def sampleEPLoanC : EqualPrincipalLoan :=
  { principal := 1000, monthly_interest_rate := 1/50, commission := 1/100,
    start_date := sampleDate, payment_frequency := "1m", bsmv_rate := 1/20,
    use_variable_accrual_days := false, num_payments := 1,
    payment_dates := fun _ => ⟨2024, 1, 31⟩, actual_accrual_days := fun _ => 30 }

/-- Fallback object for extracting a successfully constructed loan. -/
def fallbackEPLoan : EqualPrincipalLoan :=
  { principal := 0, monthly_interest_rate := 0, commission := 0,
    start_date := ⟨1, 1, 1⟩, payment_frequency := "1m", bsmv_rate := 0,
    use_variable_accrual_days := false, num_payments := 0,
    payment_dates := fun _ => ⟨1, 1, 1⟩, actual_accrual_days := fun _ => 0 }

/-- Fallback object for extracting a successfully constructed loan. -/
def fallbackEILoan : EqualInstallmentLoan :=
  { principal := 0, monthly_interest_rate := 0, commission := 0,
    start_date := ⟨1, 1, 1⟩, payment_frequency := "1m", bsmv_rate := 0,
    num_payments := 0, payment_dates := fun _ => ⟨1, 1, 1⟩,
    fixed_accrual_days := fun _ => 0 }

/-- An equal-installment loan built through the payment calendar. -/
def mkSampleEILoan : EqualInstallmentLoan :=
  (mkEqualInstallmentLoan 1000 (1/50) 0 ⟨2024, 1, 10⟩ 2 "1m" (1/20)
    (fun _ => false) 10).toOption.getD fallbackEILoan

/-- An equal-principal loan in variable-accrual mode built through the
payment calendar. -/
def mkSampleEPLoanVar : EqualPrincipalLoan :=
  (mkEqualPrincipalLoan 1000 (1/50) 0 ⟨2024, 1, 10⟩ 2 "1m" (1/20) true
    (fun _ => false) 10).toOption.getD fallbackEPLoan

theorem isCents_zero : IsCents 0 := ⟨0, by norm_num⟩

theorem isCents_add {a b : ℚ} (ha : IsCents a) (hb : IsCents b) : IsCents (a + b) := by
  obtain ⟨m, hm⟩ := ha
  obtain ⟨n, hn⟩ := hb
  exact ⟨m + n, by push_cast [hm, hn]; ring⟩

theorem isCents_quantize (q : ℚ) : IsCents (quantizeCents q) := by
  unfold quantizeCents
  split
  · exact ⟨⌊q * 100 + 1/2⌋, rfl⟩
  · exact ⟨-⌊-q * 100 + 1/2⌋, by push_cast; ring⟩

theorem quantize_intCast_div (m : ℤ) : quantizeCents ((m : ℚ) / 100) = (m : ℚ) / 100 := by
  unfold quantizeCents
  have hmul : ((m : ℚ) / 100) * 100 = (m : ℚ) := by ring
  have hfloor : ⌊(m : ℚ) + 1/2⌋ = m := by
    rw [add_comm, Int.floor_add_int]
    norm_num
  have hfloorneg : ⌊-((m : ℚ) / 100) * 100 + 1/2⌋ = -m := by
    have : -((m : ℚ) / 100) * 100 = ((-m : ℤ) : ℚ) := by push_cast; ring
    rw [this, add_comm, Int.floor_add_int]
    norm_num
  split
  · rw [hmul, hfloor]
  · rw [hfloorneg]
    push_cast
    ring

theorem quantize_of_isCents {q : ℚ} (h : IsCents q) : quantizeCents q = q := by
  obtain ⟨m, hm⟩ := h
  rw [hm, quantize_intCast_div]

theorem quantize_nonneg {q : ℚ} (h : 0 ≤ q) : 0 ≤ quantizeCents q := by
  unfold quantizeCents
  rw [if_pos h]
  have h0 : (0 : ℤ) ≤ ⌊q * 100 + 1/2⌋ := by
    rw [Int.le_floor]
    push_cast
    nlinarith
  positivity

/-- Adding an exact-cents amount commutes with cent rounding, on the
nonnegative range. -/
theorem quantize_add_cents {x c : ℚ} (hx : 0 ≤ x) (hxc : 0 ≤ x + c) (hc : IsCents c) :
    quantizeCents (x + c) = quantizeCents x + c := by
  obtain ⟨m, hm⟩ := hc
  subst hm
  unfold quantizeCents
  rw [if_pos hx, if_pos hxc]
  have harg : (x + (m : ℚ) / 100) * 100 + 1/2 = (x * 100 + 1/2) + (m : ℚ) := by ring
  rw [harg, Int.floor_add_int]
  push_cast
  ring

/-- Evaluation rule for `quantizeCents` on concrete nonnegative inputs. -/
theorem quantizeCents_eval (q : ℚ) (m : ℤ) (hq : 0 ≤ q)
    (h1 : (m : ℚ) ≤ q * 100 + 1/2) (h2 : q * 100 + 1/2 < (m : ℚ) + 1) :
    quantizeCents q = (m : ℚ) / 100 := by
  unfold quantizeCents
  rw [if_pos hq]
  have hfl : ⌊q * 100 + 1/2⌋ = m := Int.floor_eq_iff.mpr ⟨h1, by exact_mod_cast h2⟩
  rw [hfl]

theorem commissionRow_rowSum (principal commissionRate bsmvRate : ℚ) (d : Date) :
    rowSumOk (commissionRow principal commissionRate bsmvRate d) := by
  unfold rowSumOk commissionRow
  simp only
  rw [quantize_of_isCents (isCents_add (isCents_quantize _) (isCents_quantize _))]
  ring

/-- The equal-principal loop is the range map of its closed form: row j has
installment number `k0 + j` and running remainder `rem0 - j * fixed`. -/
theorem EqualPrincipalLoan.loop_eq_map (L : EqualPrincipalLoan) (n : ℕ) :
    ∀ (k0 : ℕ) (rem0 : ℚ),
      EqualPrincipalLoan.loop L n k0 rem0 =
        (List.range n).map fun j => L.scheduleRow (k0 + j) (rem0 - j * L.fixed_principal) := by
  induction n with
  | zero => intro k0 rem0; simp [EqualPrincipalLoan.loop]
  | succ n ih =>
    intro k0 rem0
    rw [EqualPrincipalLoan.loop, ih (k0 + 1) (rem0 - L.fixed_principal),
      List.range_succ_eq_map, List.map_cons, List.map_map]
    congr 1
    · norm_num
    · apply List.map_congr_left
      intro j _
      show L.scheduleRow (k0 + 1 + j) (rem0 - L.fixed_principal - (j : ℚ) * L.fixed_principal) = _
      have h1 : k0 + 1 + j = k0 + Nat.succ j := by omega
      have h2 : rem0 - L.fixed_principal - (j : ℚ) * L.fixed_principal =
          rem0 - ((Nat.succ j : ℕ) : ℚ) * L.fixed_principal := by
        push_cast
        ring
      rw [h1, h2]
      rfl

theorem EqualInstallmentLoan.loop_mem (E : EqualInstallmentLoan) (n : ℕ) :
    ∀ (k0 : ℕ) (rem : ℚ) (r : Row), r ∈ EqualInstallmentLoan.loop E n k0 rem →
      ∃ k rem2, k0 ≤ k ∧ k < k0 + n ∧ r = E.scheduleRow k rem2 := by
  induction n with
  | zero =>
    intro k0 rem r h
    simp [EqualInstallmentLoan.loop] at h
  | succ n ih =>
    intro k0 rem r h
    simp only [EqualInstallmentLoan.loop, List.mem_cons] at h
    rcases h with h1 | h2
    · exact ⟨k0, rem, le_refl _, by omega, h1⟩
    · obtain ⟨k, rem2, hk1, hk2, hr⟩ := ih (k0 + 1) _ r h2
      exact ⟨k, rem2, by omega, by omega, hr⟩

theorem EqualInstallmentLoan.scheduleRow_number (E : EqualInstallmentLoan)
    (k : ℕ) (rem : ℚ) : (E.scheduleRow k rem).installment_number = k := rfl

theorem EqualInstallmentLoan.scheduleRow_accrual (E : EqualInstallmentLoan)
    (k : ℕ) (rem : ℚ) :
    (E.scheduleRow k rem).accrual_days = (E.fixed_accrual_days k : ℤ) := rfl

theorem ei_scheduleRow_rowSum (E : EqualInstallmentLoan)
    (k : ℕ) (rem : ℚ) : rowSumOk (E.scheduleRow k rem) := by
  unfold rowSumOk EqualInstallmentLoan.scheduleRow
  simp only
  rw [quantize_of_isCents
    (isCents_add (isCents_add (isCents_quantize _) (isCents_quantize _)) (isCents_quantize _))]
  ring

theorem EqualPrincipalLoan.period_rate_nonneg (L : EqualPrincipalLoan) (k : ℕ)
    (hr : 0 ≤ L.monthly_interest_rate) (hd : 0 ≤ L.actual_accrual_days k) :
    0 ≤ L.period_rate k := by
  unfold EqualPrincipalLoan.period_rate
  have hdq : (0 : ℚ) ≤ (L.actual_accrual_days k : ℚ) := by exact_mod_cast hd
  split
  · positivity
  · split
    · exact hr
    · split
      · positivity
      · positivity

theorem ep_scheduleRow_rowSum (L : EqualPrincipalLoan)
    (k : ℕ) (rem : ℚ) (hfp : 0 ≤ L.fixed_principal) (hrem : 0 ≤ rem)
    (hrate : 0 ≤ L.period_rate k) (hb : 0 ≤ L.bsmv_rate) :
    rowSumOk (L.scheduleRow k rem) := by
  unfold rowSumOk EqualPrincipalLoan.scheduleRow
  simp only
  have hi : 0 ≤ quantizeCents (rem * L.period_rate k) :=
    quantize_nonneg (by positivity)
  have ht : 0 ≤ quantizeCents (quantizeCents (rem * L.period_rate k) * L.bsmv_rate) :=
    quantize_nonneg (by positivity)
  have hc : IsCents (quantizeCents (rem * L.period_rate k) +
      quantizeCents (quantizeCents (rem * L.period_rate k) * L.bsmv_rate)) :=
    isCents_add (isCents_quantize _) (isCents_quantize _)
  have hshift := quantize_add_cents hfp (by linarith) hc
  rw [show L.fixed_principal + quantizeCents (rem * L.period_rate k) +
      quantizeCents (quantizeCents (rem * L.period_rate k) * L.bsmv_rate) =
      L.fixed_principal + (quantizeCents (rem * L.period_rate k) +
      quantizeCents (quantizeCents (rem * L.period_rate k) * L.bsmv_rate)) from by ring,
    hshift]
  ring

/-- The running remainder of the equal-principal loop stays nonnegative
while rows remain: principal minus j shares of principal over n. -/
theorem remaining_nonneg (P : ℚ) (n j : ℕ) (hP : 0 ≤ P) (hj : j < n) :
    0 ≤ P - (j : ℚ) * (P / (n : ℚ)) := by
  have hn : 0 < (n : ℚ) := by
    have : 0 < n := by omega
    exact_mod_cast this
  have h1 : (j : ℚ) ≤ (n : ℚ) := by
    have : j ≤ n := hj.le
    exact_mod_cast this
  have h2 : (j : ℚ) * (P / (n : ℚ)) ≤ (n : ℚ) * (P / (n : ℚ)) :=
    mul_le_mul_of_nonneg_right h1 (by positivity)
  have h3 : (n : ℚ) * (P / (n : ℚ)) = P := by
    field_simp
  linarith

theorem EqualPrincipalLoan.fixed_principal_nonneg (L : EqualPrincipalLoan)
    (hP : 0 ≤ L.principal) : 0 ≤ L.fixed_principal := by
  unfold EqualPrincipalLoan.fixed_principal
  positivity

theorem ep_loop_number_pos (L : EqualPrincipalLoan) {r : Row}
    (h : r ∈ EqualPrincipalLoan.loop L L.num_payments 1 L.principal) :
    r.installment_number ≠ 0 := by
  rw [EqualPrincipalLoan.loop_eq_map] at h
  obtain ⟨j, _, rfl⟩ := List.mem_map.mp h
  show 1 + j ≠ 0
  omega

theorem ei_loop_number_pos (E : EqualInstallmentLoan) {r : Row}
    (h : r ∈ EqualInstallmentLoan.loop E E.num_payments 1 E.principal) :
    r.installment_number ≠ 0 := by
  obtain ⟨k, rem2, hk1, _, rfl⟩ := EqualInstallmentLoan.loop_mem E _ 1 _ r h
  rw [EqualInstallmentLoan.scheduleRow_number]
  omega

theorem ep_regular_schedule (L : EqualPrincipalLoan) :
    regularRows L.calculate_schedule =
      EqualPrincipalLoan.loop L L.num_payments 1 L.principal := by
  unfold regularRows EqualPrincipalLoan.calculate_schedule
  rw [List.filter_append]
  have h1 : List.filter (fun r => decide (r.installment_number ≠ 0))
      (if 0 < L.commission then
        [commissionRow L.principal L.commission L.bsmv_rate L.start_date]
      else []) = [] := by
    split
    · simp [commissionRow]
    · rfl
  have h2 : List.filter (fun r => decide (r.installment_number ≠ 0))
      (EqualPrincipalLoan.loop L L.num_payments 1 L.principal) =
      EqualPrincipalLoan.loop L L.num_payments 1 L.principal := by
    apply List.filter_eq_self.mpr
    intro r hr
    simpa using ep_loop_number_pos L hr
  rw [h1, h2, List.nil_append]

theorem ep_rowZero_schedule (L : EqualPrincipalLoan) :
    rowZeroRows L.calculate_schedule =
      (if 0 < L.commission then
        [commissionRow L.principal L.commission L.bsmv_rate L.start_date]
      else []) := by
  unfold rowZeroRows EqualPrincipalLoan.calculate_schedule
  rw [List.filter_append]
  have h1 : List.filter (fun r => decide (r.installment_number = 0))
      (if 0 < L.commission then
        [commissionRow L.principal L.commission L.bsmv_rate L.start_date]
      else []) =
      (if 0 < L.commission then
        [commissionRow L.principal L.commission L.bsmv_rate L.start_date]
      else []) := by
    split
    · simp [commissionRow]
    · rfl
  have h2 : List.filter (fun r => decide (r.installment_number = 0))
      (EqualPrincipalLoan.loop L L.num_payments 1 L.principal) = [] := by
    apply List.filter_eq_nil_iff.mpr
    intro r hr
    simpa using ep_loop_number_pos L hr
  rw [h1, h2, List.append_nil]

theorem ei_regular_schedule (E : EqualInstallmentLoan) :
    regularRows E.calculate_schedule =
      EqualInstallmentLoan.loop E E.num_payments 1 E.principal := by
  unfold regularRows EqualInstallmentLoan.calculate_schedule
  rw [List.filter_append]
  have h1 : List.filter (fun r => decide (r.installment_number ≠ 0))
      (if 0 < E.commission then
        [commissionRow E.principal E.commission E.bsmv_rate E.start_date]
      else []) = [] := by
    split
    · simp [commissionRow]
    · rfl
  have h2 : List.filter (fun r => decide (r.installment_number ≠ 0))
      (EqualInstallmentLoan.loop E E.num_payments 1 E.principal) =
      EqualInstallmentLoan.loop E E.num_payments 1 E.principal := by
    apply List.filter_eq_self.mpr
    intro r hr
    simpa using ei_loop_number_pos E hr
  rw [h1, h2, List.nil_append]

theorem ei_rowZero_schedule (E : EqualInstallmentLoan) :
    rowZeroRows E.calculate_schedule =
      (if 0 < E.commission then
        [commissionRow E.principal E.commission E.bsmv_rate E.start_date]
      else []) := by
  unfold rowZeroRows EqualInstallmentLoan.calculate_schedule
  rw [List.filter_append]
  have h1 : List.filter (fun r => decide (r.installment_number = 0))
      (if 0 < E.commission then
        [commissionRow E.principal E.commission E.bsmv_rate E.start_date]
      else []) =
      (if 0 < E.commission then
        [commissionRow E.principal E.commission E.bsmv_rate E.start_date]
      else []) := by
    split
    · simp [commissionRow]
    · rfl
  have h2 : List.filter (fun r => decide (r.installment_number = 0))
      (EqualInstallmentLoan.loop E E.num_payments 1 E.principal) = [] := by
    apply List.filter_eq_nil_iff.mpr
    intro r hr
    simpa using ei_loop_number_pos E hr
  rw [h1, h2, List.append_nil]

theorem sumBy_append (f : Row → ℚ) (a b : List Row) :
    sumBy f (a ++ b) = sumBy f a + sumBy f b := by
  unfold sumBy
  rw [List.map_append, List.sum_append]

theorem except_map_ok {α β : Type} (f : α → β) (x : Except String α) (y : β)
    (h : Except.map f x = Except.ok y) : ∃ a, x = Except.ok a ∧ y = f a := by
  cases x with
  | error e => simp [Except.map] at h
  | ok a =>
    refine ⟨a, rfl, ?_⟩
    simp only [Except.map, Except.ok.injEq] at h
    exact h.symm

theorem genPeriods_spec (isHol : Date → Bool) (fuel freqM targetDay bankDays : ℕ) :
    ∀ (n k : ℕ) (base acc : Date) (l : List PaymentPeriod),
      genPeriods isHol fuel freqM targetDay bankDays n k base acc = some l →
      l.length = n ∧ (∀ p ∈ l, p.banking_days = bankDays) ∧
        (∀ j, j < n → ∃ p ∈ l, p.installment = k + j) := by
  intro n
  induction n with
  | zero =>
    intro k base acc l h
    simp only [genPeriods, Option.some.injEq] at h
    subst h
    refine ⟨rfl, by simp, ?_⟩
    intro j hj
    omega
  | succ n ih =>
    intro k base acc l h
    simp only [genPeriods] at h
    rcases hadj : adjustToBusinessDay isHol fuel
        (setDayClamped (base.addMonths freqM) targetDay) with _ | pd
    · rw [hadj] at h
      simp at h
    · rw [hadj] at h
      dsimp only at h
      rcases hrec : genPeriods isHol fuel freqM targetDay bankDays n (k + 1)
          (base.addMonths freqM) pd with _ | rest
      · rw [hrec] at h
        simp at h
      · rw [hrec] at h
        dsimp only at h
        rw [Option.some.injEq] at h
        subst h
        obtain ⟨hlen, hbank, hinst⟩ := ih (k + 1) (base.addMonths freqM) pd rest hrec
        refine ⟨by simp [hlen], ?_, ?_⟩
        · intro p hp
          rcases List.mem_cons.mp hp with h1 | h2
          · rw [h1]
          · exact hbank p h2
        · intro j hj
          rcases Nat.eq_zero_or_pos j with h0 | hpos
          · subst h0
            exact ⟨_, List.mem_cons_self _ _, rfl⟩
          · obtain ⟨p, hp, hpk⟩ := hinst (j - 1) (by omega)
            refine ⟨p, List.mem_cons_of_mem _ hp, ?_⟩
            omega

/-- C1: for every schedule produced by either amortizer (under the data
model's input invariants: nonnegative principal, interest rate, BSMV rate
and accrual day counts), every row, the optional commission row 0
included, satisfies
`installment_amount = principal_payment + interest_payment + bsmv + commission_payment`
exactly. -/
theorem C1_row_sum_invariant (L : EqualPrincipalLoan) (E : EqualInstallmentLoan)
    (hP : 0 ≤ L.principal) (hr : 0 ≤ L.monthly_interest_rate)
    (hb : 0 ≤ L.bsmv_rate) (hd : ∀ k, 0 ≤ L.actual_accrual_days k) :
    (∀ r ∈ L.calculate_schedule, rowSumOk r) ∧
    (∀ r ∈ E.calculate_schedule, rowSumOk r) := by
  constructor
  · intro r hmem
    unfold EqualPrincipalLoan.calculate_schedule at hmem
    rcases List.mem_append.mp hmem with h | h
    · by_cases hc : 0 < L.commission
      · rw [if_pos hc] at h
        rw [List.mem_singleton.mp h]
        exact commissionRow_rowSum _ _ _ _
      · rw [if_neg hc] at h
        simp at h
    · rw [EqualPrincipalLoan.loop_eq_map] at h
      obtain ⟨j, hj, rfl⟩ := List.mem_map.mp h
      rw [List.mem_range] at hj
      exact ep_scheduleRow_rowSum L _ _ (L.fixed_principal_nonneg hP)
        (remaining_nonneg _ _ _ hP hj) (L.period_rate_nonneg _ hr (hd _)) hb
  · intro r hmem
    unfold EqualInstallmentLoan.calculate_schedule at hmem
    rcases List.mem_append.mp hmem with h | h
    · by_cases hc : 0 < E.commission
      · rw [if_pos hc] at h
        rw [List.mem_singleton.mp h]
        exact commissionRow_rowSum _ _ _ _
      · rw [if_neg hc] at h
        simp at h
    · obtain ⟨k, rem2, _, _, rfl⟩ := EqualInstallmentLoan.loop_mem E _ _ _ r h
      exact ei_scheduleRow_rowSum E k rem2

/-- Witness for C1 at two concrete loans. -/
theorem C1_row_sum_invariant_witness :
    (∀ r ∈ sampleEPLoanA.calculate_schedule, rowSumOk r) ∧
    (∀ r ∈ sampleEILoanA.calculate_schedule, rowSumOk r) :=
  C1_row_sum_invariant sampleEPLoanA sampleEILoanA (by norm_num [sampleEPLoanA])
    (by norm_num [sampleEPLoanA]) (by norm_num [sampleEPLoanA])
    (fun k => by norm_num [sampleEPLoanA])

/-- C5: with start 2024-01-10, monthly frequency, a 2-period term, and the
weekend-only non-business predicate, the generated schedule pays on
2024-02-12 with 33 accrual days and on 2024-03-11 with 28 accrual days,
while the nominal anchors stay on the original day-10 cadence
(2024-02-10, then 2024-03-10 unaffected by the February adjustment). -/
theorem C5_weekend_adjustment_schedule :
    generateSchedule ⟨2024, 1, 10⟩ 2 "1m" (fun _ => false) 10 =
      .ok [⟨1, ⟨2024, 2, 12⟩, 33, 30⟩, ⟨2, ⟨2024, 3, 11⟩, 28, 30⟩] ∧
    nominalAnchor ⟨2024, 1, 10⟩ 1 1 = ⟨2024, 2, 10⟩ ∧
    nominalAnchor ⟨2024, 1, 10⟩ 1 2 = ⟨2024, 3, 10⟩ ∧
    (⟨2024, 3, 10⟩ : Date).weekday = 6 := by
  refine ⟨by rfl, by decide, by decide, by decide⟩

/-- C9: schedule generation signals `InvalidFrequency` for every frequency
string outside the three supported values, before producing any schedule,
and never signals it for the supported values. -/
theorem C9_invalid_frequency (freq : String) (start : Date) (term : ℕ)
    (isHol : Date → Bool) (fuel : ℕ) :
    (freq ≠ "1m" ∧ freq ≠ "3m" ∧ freq ≠ "6m" →
      generateSchedule start term freq isHol fuel = .error "InvalidFrequency") ∧
    (freq = "1m" ∨ freq = "3m" ∨ freq = "6m" →
      generateSchedule start term freq isHol fuel ≠ .error "InvalidFrequency") := by
  constructor
  · rintro ⟨h1, h3, h6⟩
    unfold generateSchedule relativeDeltaMonths frequencyToDays
    rw [if_neg h1, if_neg h3, if_neg h6]
  · rintro (rfl | rfl | rfl) <;>
      · unfold generateSchedule relativeDeltaMonths frequencyToDays
        simp only [if_pos, if_neg, String.reduceEq, reduceIte]
        rcases genPeriods _ _ _ _ _ _ _ _ _ with _ | l <;> simp

/-- Witness for C9 at the unsupported frequency "2m" and the supported
frequency "1m". -/
theorem C9_invalid_frequency_witness :
    generateSchedule sampleDate 6 "2m" (fun _ => false) 10 = .error "InvalidFrequency" ∧
    generateSchedule sampleDate 6 "1m" (fun _ => false) 10 ≠ .error "InvalidFrequency" :=
  ⟨(C9_invalid_frequency "2m" sampleDate 6 (fun _ => false) 10).1
      (by refine ⟨?_, ?_, ?_⟩ <;> decide),
   (C9_invalid_frequency "1m" sampleDate 6 (fun _ => false) 10).2 (Or.inl rfl)⟩

/-- C2 counterexample: for the 100-over-3-periods loan the reported
remaining principal of period 2 is 33.33 (the cent rounding of
100 minus 2 times the unrounded 100/3), not 100 minus 2 times the rounded
fixed principal 33.33, which would be 33.34. -/
theorem C2_counterexample :
    (sampleEPLoanA.calculate_schedule.map fun r => r.remaining_principal) =
      [6667/100, 3333/100, 0] ∧
    (3333/100 : ℚ) ≠
      sampleEPLoanA.principal - 2 * quantizeCents sampleEPLoanA.fixed_principal := by
  have hq : quantizeCents (100/3 : ℚ) = 3333/100 := by
    rw [quantizeCents_eval _ 3333 (by norm_num) (by norm_num) (by norm_num)]
    norm_num
  have hq2 : quantizeCents (200/3 : ℚ) = 6667/100 := by
    rw [quantizeCents_eval _ 6667 (by norm_num) (by norm_num) (by norm_num)]
    norm_num
  have hq0 : quantizeCents (0 : ℚ) = 0 := quantize_of_isCents isCents_zero
  constructor
  · rw [EqualPrincipalLoan.calculate_schedule, EqualPrincipalLoan.loop_eq_map]
    norm_num [sampleEPLoanA, EqualPrincipalLoan.scheduleRow,
      EqualPrincipalLoan.fixed_principal, List.range_succ]
    norm_num [show (100 : ℚ) - 100/3 = 200/3 from by norm_num,
      show (100 : ℚ) - 100/3 - 100/3 = 100/3 from by norm_num,
      show (100 : ℚ) - 2 * (100/3) - 100/3 = 0 from by norm_num, hq, hq2, hq0]
  · rw [show sampleEPLoanA.fixed_principal = 100/3 from by
      norm_num [sampleEPLoanA, EqualPrincipalLoan.fixed_principal], hq]
    norm_num [sampleEPLoanA]

/-- C2 amended: the running remainder is decremented by the unrounded
fixed principal each period, and the reported `remaining_principal` of
period k is the cent rounding of `principal - k * (principal / num_periods)`
(not `principal - k * round(principal / num_periods)`). -/
theorem C2_remaining_principal_amended (L : EqualPrincipalLoan) (k : ℕ)
    (h1 : 1 ≤ k) (h2 : k ≤ L.num_payments) :
    ∃ r ∈ L.calculate_schedule, r.installment_number = k ∧
      r.remaining_principal =
        quantizeCents (L.principal - (k : ℚ) * L.fixed_principal) := by
  refine ⟨L.scheduleRow (1 + (k - 1))
    (L.principal - ((k - 1 : ℕ) : ℚ) * L.fixed_principal), ?_, ?_, ?_⟩
  · unfold EqualPrincipalLoan.calculate_schedule
    apply List.mem_append_right
    rw [EqualPrincipalLoan.loop_eq_map]
    exact List.mem_map.mpr ⟨k - 1, List.mem_range.mpr (by omega), rfl⟩
  · show 1 + (k - 1) = k
    omega
  · show quantizeCents (L.principal - ((k - 1 : ℕ) : ℚ) * L.fixed_principal
      - L.fixed_principal) = _
    congr 1
    have hk : ((k - 1 : ℕ) : ℚ) = (k : ℚ) - 1 := by
      have : (1 : ℕ) ≤ k := h1
      push_cast [this]
      ring
    rw [hk]
    ring

/-- Witness for C2 amended at the 100-over-3 loan, period 2. -/
theorem C2_remaining_principal_amended_witness :
    ∃ r ∈ sampleEPLoanA.calculate_schedule, r.installment_number = 2 ∧
      r.remaining_principal =
        quantizeCents (sampleEPLoanA.principal - (2 : ℚ) * sampleEPLoanA.fixed_principal) :=
  C2_remaining_principal_amended sampleEPLoanA 2 (by omega) (by decide)

/-- C6: spec scenario 2. Any equal-principal loan with principal 120000,
monthly rate 0.02, zero commission, default BSMV rate, fixed monthly
convention and 3 periods (the schedule length a 3-month monthly term
yields) produces exactly three rows, numbered 1 to 3 with no commission
row, carrying the claimed principal, interest, BSMV, installment and
remaining-principal amounts. -/
theorem C6_equal_principal_scenario (L : EqualPrincipalLoan)
    (hP : L.principal = 120000) (hr : L.monthly_interest_rate = 1/50)
    (hc : L.commission = 0) (hb : L.bsmv_rate = 1/20)
    (hf : L.payment_frequency = "1m") (hv : L.use_variable_accrual_days = false)
    (hn : L.num_payments = 3) :
    L.calculate_schedule.map (fun r =>
        (r.installment_number, r.principal_payment, r.interest_payment, r.bsmv,
          r.installment_amount, r.remaining_principal)) =
      [(1, 40000, 2400, 120, 42520, 80000),
       (2, 40000, 1600, 80, 41680, 40000),
       (3, 40000, 800, 40, 40840, 0)] := by
  have e1 : quantizeCents (40000 : ℚ) = 40000 := quantize_of_isCents ⟨4000000, by norm_num⟩
  have e2 : quantizeCents (2400 : ℚ) = 2400 := quantize_of_isCents ⟨240000, by norm_num⟩
  have e3 : quantizeCents (120 : ℚ) = 120 := quantize_of_isCents ⟨12000, by norm_num⟩
  have e4 : quantizeCents (42520 : ℚ) = 42520 := quantize_of_isCents ⟨4252000, by norm_num⟩
  have e5 : quantizeCents (80000 : ℚ) = 80000 := quantize_of_isCents ⟨8000000, by norm_num⟩
  have e6 : quantizeCents (1600 : ℚ) = 1600 := quantize_of_isCents ⟨160000, by norm_num⟩
  have e7 : quantizeCents (80 : ℚ) = 80 := quantize_of_isCents ⟨8000, by norm_num⟩
  have e8 : quantizeCents (41680 : ℚ) = 41680 := quantize_of_isCents ⟨4168000, by norm_num⟩
  have e9 : quantizeCents (800 : ℚ) = 800 := quantize_of_isCents ⟨80000, by norm_num⟩
  have e10 : quantizeCents (40 : ℚ) = 40 := quantize_of_isCents ⟨4000, by norm_num⟩
  have e11 : quantizeCents (40840 : ℚ) = 40840 := quantize_of_isCents ⟨4084000, by norm_num⟩
  have e12 : quantizeCents (0 : ℚ) = 0 := quantize_of_isCents isCents_zero
  rw [EqualPrincipalLoan.calculate_schedule, EqualPrincipalLoan.loop_eq_map]
  norm_num [hP, hr, hc, hb, hf, hv, hn, EqualPrincipalLoan.scheduleRow,
    EqualPrincipalLoan.period_rate, EqualPrincipalLoan.row_accrual_days,
    EqualPrincipalLoan.fixed_principal, List.range_succ,
    e1, e2, e3, e4, e5, e6, e7, e8, e9, e10, e11, e12]

/-- Witness for C6 at a concrete loan. -/
theorem C6_equal_principal_scenario_witness :
    sampleEPLoanB.calculate_schedule.map (fun r =>
        (r.installment_number, r.principal_payment, r.interest_payment, r.bsmv,
          r.installment_amount, r.remaining_principal)) =
      [(1, 40000, 2400, 120, 42520, 80000),
       (2, 40000, 1600, 80, 41680, 40000),
       (3, 40000, 800, 40, 40840, 0)] :=
  C6_equal_principal_scenario sampleEPLoanB rfl rfl rfl rfl rfl rfl rfl

/-- C7: when the principal divides evenly by the number of periods to the
cent, the last regular row (the one carrying the largest installment
number, `num_payments`) reports remaining principal exactly 0.00. -/
theorem C7_terminal_remaining_zero (L : EqualPrincipalLoan)
    (hdiv : IsCents L.fixed_principal) (hn : 0 < L.num_payments) :
    (∃ r ∈ L.calculate_schedule, r.installment_number = L.num_payments ∧
      r.remaining_principal = 0) ∧
    ∀ r ∈ regularRows L.calculate_schedule,
      r.installment_number ≤ L.num_payments := by
  constructor
  · refine ⟨L.scheduleRow (1 + (L.num_payments - 1))
      (L.principal - ((L.num_payments - 1 : ℕ) : ℚ) * L.fixed_principal), ?_, ?_, ?_⟩
    · unfold EqualPrincipalLoan.calculate_schedule
      apply List.mem_append_right
      rw [EqualPrincipalLoan.loop_eq_map]
      exact List.mem_map.mpr ⟨L.num_payments - 1, List.mem_range.mpr (by omega), rfl⟩
    · show 1 + (L.num_payments - 1) = L.num_payments
      omega
    · show quantizeCents (L.principal -
        ((L.num_payments - 1 : ℕ) : ℚ) * L.fixed_principal - L.fixed_principal) = 0
      have hk : ((L.num_payments - 1 : ℕ) : ℚ) = (L.num_payments : ℚ) - 1 := by
        have h1 : (1 : ℕ) ≤ L.num_payments := hn
        push_cast [h1]
        ring
      have hne : ((L.num_payments : ℕ) : ℚ) ≠ 0 := by
        exact_mod_cast Nat.pos_iff_ne_zero.mp hn
      have harg : L.principal - ((L.num_payments - 1 : ℕ) : ℚ) * L.fixed_principal
          - L.fixed_principal = 0 := by
        rw [hk]
        unfold EqualPrincipalLoan.fixed_principal
        field_simp
        ring
      rw [harg]
      exact quantize_of_isCents isCents_zero
  · intro r hr
    rw [ep_regular_schedule, EqualPrincipalLoan.loop_eq_map] at hr
    obtain ⟨j, hj, rfl⟩ := List.mem_map.mp hr
    rw [List.mem_range] at hj
    show 1 + j ≤ _
    omega

/-- Witness for C7 at the scenario-2 loan (120000 over 3: the share 40000
is an exact cent amount). -/
theorem C7_terminal_remaining_zero_witness :
    (∃ r ∈ sampleEPLoanB.calculate_schedule,
      r.installment_number = sampleEPLoanB.num_payments ∧
      r.remaining_principal = 0) ∧
    ∀ r ∈ regularRows sampleEPLoanB.calculate_schedule,
      r.installment_number ≤ sampleEPLoanB.num_payments :=
  C7_terminal_remaining_zero sampleEPLoanB
    ⟨4000000, by norm_num [sampleEPLoanB, EqualPrincipalLoan.fixed_principal]⟩
    (by norm_num [sampleEPLoanB])

/-- C8: when the total principal repaid across the regular rows of a
schedule is zero (as with an empty regular-row set from a zero term), the
summary computation of either amortizer signals `DegenerateSchedule`
instead of returning a value. -/
theorem C8_degenerate_schedule (L : EqualPrincipalLoan) (E : EqualInstallmentLoan)
    (s1 s2 : List Row)
    (h1 : sumBy (fun r => r.principal_payment) (regularRows s1) = 0)
    (h2 : sumBy (fun r => r.principal_payment) (regularRows s2) = 0) :
    L.calculate_average_maturity_and_all_in_rate s1 = .error "DegenerateSchedule" ∧
    E.calculate_average_maturity_and_all_in_rate s2 = .error "DegenerateSchedule" := by
  constructor
  · simp [EqualPrincipalLoan.calculate_average_maturity_and_all_in_rate, h1]
  · simp [EqualInstallmentLoan.calculate_average_maturity_and_all_in_rate, h2]

/-- Witness for C8 at two zero-term loans, whose schedules have no regular
rows at all. -/
theorem C8_degenerate_schedule_witness :
    sampleEPLoanZeroTerm.calculate_average_maturity_and_all_in_rate
        sampleEPLoanZeroTerm.calculate_schedule = .error "DegenerateSchedule" ∧
    sampleEILoanZeroTerm.calculate_average_maturity_and_all_in_rate
        sampleEILoanZeroTerm.calculate_schedule = .error "DegenerateSchedule" :=
  C8_degenerate_schedule sampleEPLoanZeroTerm sampleEILoanZeroTerm _ _
    (by simp [sampleEPLoanZeroTerm, EqualPrincipalLoan.calculate_schedule,
      EqualPrincipalLoan.loop, regularRows, sumBy])
    (by simp [sampleEILoanZeroTerm, EqualInstallmentLoan.calculate_schedule,
      EqualInstallmentLoan.loop, regularRows, sumBy])

theorem EqualInstallmentLoan.loop_installment_const (E : EqualInstallmentLoan) (n : ℕ) :
    ∀ (k0 : ℕ) (rem : ℚ), 0 ≤ E.fixed_installment →
      (∀ r ∈ EqualInstallmentLoan.loop E n k0 rem,
        r.interest_payment + r.bsmv ≤ E.fixed_installment) →
      ∀ r ∈ EqualInstallmentLoan.loop E n k0 rem,
        r.installment_amount = quantizeCents E.fixed_installment := by
  induction n with
  | zero =>
    intro k0 rem _ _ r hmem
    simp [EqualInstallmentLoan.loop] at hmem
  | succ n ih =>
    intro k0 rem hT hb r hmem
    have hhead : (E.scheduleRow k0 rem).interest_payment +
        (E.scheduleRow k0 rem).bsmv ≤ E.fixed_installment :=
      hb _ (by simp [EqualInstallmentLoan.loop])
    simp only [EqualInstallmentLoan.loop, List.mem_cons] at hmem
    rcases hmem with rfl | hmem
    · unfold EqualInstallmentLoan.scheduleRow at hhead ⊢
      simp only at hhead ⊢
      set i := quantizeCents (rem * E.sched_period_rate) with hi
      set t := quantizeCents (i * E.bsmv_rate) with ht
      have hc : IsCents (i + t) := isCents_add (isCents_quantize _) (isCents_quantize _)
      have harg : E.fixed_installment - i - t = E.fixed_installment - (i + t) := by ring
      have hsh := quantize_add_cents (x := E.fixed_installment - (i + t)) (c := i + t)
        (by linarith) (by linarith) hc
      have harg2 : E.fixed_installment - (i + t) + (i + t) = E.fixed_installment := by ring
      rw [harg2] at hsh
      have hp : IsCents (quantizeCents (E.fixed_installment - i - t) + (i + t)) :=
        isCents_add (isCents_quantize _) hc
      rw [show quantizeCents (E.fixed_installment - i - t) + i + t =
        quantizeCents (E.fixed_installment - i - t) + (i + t) from by ring,
        quantize_of_isCents hp, harg, ← hsh]
    · exact ih (k0 + 1) (rem - (E.scheduleRow k0 rem).principal_payment) hT
        (fun r2 h2 => hb r2 (by
          simp only [EqualInstallmentLoan.loop, List.mem_cons]
          exact Or.inr h2)) r hmem

/-- C4: under the loan invariants that make the annuity well posed
(nonnegative annuity amount at least as large as each period's interest
plus BSMV), every regular row of an equal-installment schedule reports the
same installment, the annuity amount T rounded to cents; the permitted
one-cent deviation in the final row never materializes. -/
theorem C4_equal_installment_constancy (E : EqualInstallmentLoan)
    (hT : 0 ≤ E.fixed_installment)
    (hrows : ∀ r ∈ E.calculate_schedule, r.installment_number ≠ 0 →
      r.interest_payment + r.bsmv ≤ E.fixed_installment) :
    ∀ r ∈ E.calculate_schedule, r.installment_number ≠ 0 →
      r.installment_amount = quantizeCents E.fixed_installment := by
  intro r hmem hnum
  unfold EqualInstallmentLoan.calculate_schedule at hmem
  rcases List.mem_append.mp hmem with h | h
  · exfalso
    by_cases hc : 0 < E.commission
    · rw [if_pos hc, List.mem_singleton] at h
      apply hnum
      rw [h]
      rfl
    · rw [if_neg hc] at h
      simp at h
  · refine EqualInstallmentLoan.loop_installment_const E _ 1 E.principal hT ?_ r h
    intro r2 h2
    refine hrows r2 ?_ (ei_loop_number_pos E h2)
    unfold EqualInstallmentLoan.calculate_schedule
    exact List.mem_append_right _ h2

theorem ei_loop_one (E : EqualInstallmentLoan) (k : ℕ) (rem : ℚ) :
    EqualInstallmentLoan.loop E 1 k rem = [E.scheduleRow k rem] := rfl

theorem sampleEILoanA_fixed_installment : sampleEILoanA.fixed_installment = 1021 := by
  norm_num [sampleEILoanA, EqualInstallmentLoan.fixed_installment,
    EqualInstallmentLoan.init_period_rate, frequencyToDays]

theorem sampleEILoanA_schedule :
    sampleEILoanA.calculate_schedule =
      [{ installment_number := 0, payment_date := sampleDate, accrual_days := 0,
         principal_payment := 0, interest_payment := 0, commission_payment := 10,
         bsmv := 1/2, installment_amount := 21/2, remaining_principal := 1000 },
       { installment_number := 1, payment_date := ⟨2024, 1, 31⟩, accrual_days := 30,
         principal_payment := 1000, interest_payment := 20, commission_payment := 0,
         bsmv := 1, installment_amount := 1021, remaining_principal := 0 }] := by
  have q10 : quantizeCents (10 : ℚ) = 10 := quantize_of_isCents ⟨1000, by norm_num⟩
  have qhalf : quantizeCents (1/2 : ℚ) = 1/2 := quantize_of_isCents ⟨50, by norm_num⟩
  have q212 : quantizeCents (21/2 : ℚ) = 21/2 := quantize_of_isCents ⟨1050, by norm_num⟩
  have q1000 : quantizeCents (1000 : ℚ) = 1000 := quantize_of_isCents ⟨100000, by norm_num⟩
  have q20 : quantizeCents (20 : ℚ) = 20 := quantize_of_isCents ⟨2000, by norm_num⟩
  have q1 : quantizeCents (1 : ℚ) = 1 := quantize_of_isCents ⟨100, by norm_num⟩
  have q1021 : quantizeCents (1021 : ℚ) = 1021 := quantize_of_isCents ⟨102100, by norm_num⟩
  have q0 : quantizeCents (0 : ℚ) = 0 := quantize_of_isCents isCents_zero
  have hnp : sampleEILoanA.num_payments = 1 := rfl
  have hpr : sampleEILoanA.principal = 1000 := rfl
  rw [EqualInstallmentLoan.calculate_schedule, if_pos (by norm_num [sampleEILoanA]),
    hnp, hpr, ei_loop_one]
  unfold commissionRow EqualInstallmentLoan.scheduleRow
  rw [sampleEILoanA_fixed_installment]
  norm_num [EqualInstallmentLoan.sched_period_rate,
    show sampleEILoanA.principal = 1000 from rfl,
    show sampleEILoanA.monthly_interest_rate = 1/50 from rfl,
    show sampleEILoanA.bsmv_rate = 1/20 from rfl,
    show sampleEILoanA.commission = 1/100 from rfl,
    show sampleEILoanA.payment_frequency = "1m" from rfl,
    show sampleEILoanA.start_date = sampleDate from rfl,
    show sampleEILoanA.payment_dates 1 = ⟨2024, 1, 31⟩ from rfl,
    show sampleEILoanA.fixed_accrual_days 1 = 30 from rfl,
    q10, qhalf, q212, q1000, q20, q1, q1021, q0]

/-- Witness for C4 at the one-period commission loan: both the commission
row (exempt) and the regular row exist, and the regular installment is the
rounded annuity amount. -/
theorem C4_equal_installment_constancy_witness :
    (0 : ℚ) ≤ sampleEILoanA.fixed_installment ∧
    ∀ r ∈ sampleEILoanA.calculate_schedule, r.installment_number ≠ 0 →
      r.installment_amount = quantizeCents sampleEILoanA.fixed_installment :=
  ⟨by rw [sampleEILoanA_fixed_installment]; norm_num,
  C4_equal_installment_constancy sampleEILoanA
    (by rw [sampleEILoanA_fixed_installment]; norm_num)
    (by
      rw [sampleEILoanA_schedule, sampleEILoanA_fixed_installment]
      intro r hmem hnum
      rcases List.mem_cons.mp hmem with rfl | hmem2
      · exact absurd rfl hnum
      · rcases List.mem_cons.mp hmem2 with rfl | hmem3
        · norm_num
        · simp at hmem3)⟩

theorem ep_loop_one (L : EqualPrincipalLoan) (k : ℕ) (rem : ℚ) :
    EqualPrincipalLoan.loop L 1 k rem = [L.scheduleRow k rem] := rfl

theorem sampleEPLoanC_schedule :
    sampleEPLoanC.calculate_schedule =
      [{ installment_number := 0, payment_date := sampleDate, accrual_days := 0,
         principal_payment := 0, interest_payment := 0, commission_payment := 10,
         bsmv := 1/2, installment_amount := 21/2, remaining_principal := 1000 },
       { installment_number := 1, payment_date := ⟨2024, 1, 31⟩, accrual_days := 30,
         principal_payment := 1000, interest_payment := 20, commission_payment := 0,
         bsmv := 1, installment_amount := 1021, remaining_principal := 0 }] := by
  have q10 : quantizeCents (10 : ℚ) = 10 := quantize_of_isCents ⟨1000, by norm_num⟩
  have qhalf : quantizeCents (1/2 : ℚ) = 1/2 := quantize_of_isCents ⟨50, by norm_num⟩
  have q212 : quantizeCents (21/2 : ℚ) = 21/2 := quantize_of_isCents ⟨1050, by norm_num⟩
  have q1000 : quantizeCents (1000 : ℚ) = 1000 := quantize_of_isCents ⟨100000, by norm_num⟩
  have q20 : quantizeCents (20 : ℚ) = 20 := quantize_of_isCents ⟨2000, by norm_num⟩
  have q1 : quantizeCents (1 : ℚ) = 1 := quantize_of_isCents ⟨100, by norm_num⟩
  have q1021 : quantizeCents (1021 : ℚ) = 1021 := quantize_of_isCents ⟨102100, by norm_num⟩
  have q0 : quantizeCents (0 : ℚ) = 0 := quantize_of_isCents isCents_zero
  have hnp : sampleEPLoanC.num_payments = 1 := rfl
  have hpr : sampleEPLoanC.principal = 1000 := rfl
  rw [EqualPrincipalLoan.calculate_schedule, if_pos (by norm_num [sampleEPLoanC]),
    hnp, hpr, ep_loop_one]
  unfold commissionRow EqualPrincipalLoan.scheduleRow
  norm_num [EqualPrincipalLoan.period_rate, EqualPrincipalLoan.row_accrual_days,
    EqualPrincipalLoan.fixed_days, EqualPrincipalLoan.fixed_principal,
    show sampleEPLoanC.principal = 1000 from rfl,
    show sampleEPLoanC.monthly_interest_rate = 1/50 from rfl,
    show sampleEPLoanC.bsmv_rate = 1/20 from rfl,
    show sampleEPLoanC.commission = 1/100 from rfl,
    show sampleEPLoanC.payment_frequency = "1m" from rfl,
    show sampleEPLoanC.start_date = sampleDate from rfl,
    show sampleEPLoanC.use_variable_accrual_days = false from rfl,
    show sampleEPLoanC.num_payments = 1 from rfl,
    show sampleEPLoanC.payment_dates 1 = ⟨2024, 1, 31⟩ from rfl,
    q10, qhalf, q212, q1000, q20, q1, q1021, q0]

theorem sampleEILoanA_summary :
    sampleEILoanA.calculate_average_maturity_and_all_in_rate
      sampleEILoanA.calculate_schedule = .ok ⟨2/25, 3893/100⟩ := by
  have hdd : dateDiffDays ⟨2024, 1, 31⟩ sampleDate = 30 := by decide
  have qy : quantizeCents (6/73 : ℚ) = 2/25 := by
    rw [quantizeCents_eval _ 8 (by norm_num) (by norm_num) (by norm_num)]
    norm_num
  have qr : quantizeCents (584/15 : ℚ) = 3893/100 := by
    rw [quantizeCents_eval _ 3893 (by norm_num) (by norm_num) (by norm_num)]
    norm_num
  rw [sampleEILoanA_schedule]
  unfold EqualInstallmentLoan.calculate_average_maturity_and_all_in_rate
  norm_num [rowZeroRows, regularRows, sumBy, hdd, List.filter,
    show sampleEILoanA.start_date = sampleDate from rfl,
    show sampleEILoanA.principal = 1000 from rfl, qy, qr]

theorem sampleEPLoanC_summary :
    sampleEPLoanC.calculate_average_maturity_and_all_in_rate
      sampleEPLoanC.calculate_schedule = .ok ⟨2/25, 3938/100⟩ := by
  have hdd : dateDiffDays ⟨2024, 1, 31⟩ sampleDate = 30 := by decide
  have qy : quantizeCents (6/73 : ℚ) = 2/25 := by
    rw [quantizeCents_eval _ 8 (by norm_num) (by norm_num) (by norm_num)]
    norm_num
  have qr : quantizeCents (315/8 : ℚ) = 3938/100 := by
    rw [quantizeCents_eval _ 3938 (by norm_num) (by norm_num) (by norm_num)]
    norm_num
  rw [sampleEPLoanC_schedule]
  unfold EqualPrincipalLoan.calculate_average_maturity_and_all_in_rate
  norm_num [rowZeroRows, regularRows, sumBy, hdd, List.filter,
    show sampleEPLoanC.start_date = sampleDate from rfl,
    show sampleEPLoanC.principal = 1000 from rfl, qy, qr]

/-- C3 counterexample: for the one-period equal-installment loan with a
commission, the returned all-in rate is 38.93, while the claimed formula
(interest total plus the bsmv of all rows plus the upfront commission
amount, over returned maturity years times principal, times 100) rounds
to 39.38: the code adds the commission BSMV twice and divides by the
unrounded maturity. -/
theorem C3_counterexample :
    sampleEILoanA.calculate_average_maturity_and_all_in_rate
      sampleEILoanA.calculate_schedule = .ok ⟨2/25, 3893/100⟩ ∧
    (3893/100 : ℚ) ≠ quantizeCents
      ((totalInterestRegular sampleEILoanA.calculate_schedule +
        totalBsmvAllRows sampleEILoanA.calculate_schedule +
        sampleEILoanA.upfront_commission) /
        ((2/25) * sampleEILoanA.principal) * 100) := by
  refine ⟨sampleEILoanA_summary, ?_⟩
  have qr : quantizeCents (315/8 : ℚ) = 3938/100 := by
    rw [quantizeCents_eval _ 3938 (by norm_num) (by norm_num) (by norm_num)]
    norm_num
  have q10 : quantizeCents (10 : ℚ) = 10 := quantize_of_isCents ⟨1000, by norm_num⟩
  rw [sampleEILoanA_schedule]
  norm_num [totalInterestRegular, totalBsmvAllRows, regularRows, sumBy,
    EqualInstallmentLoan.upfront_commission, List.filter,
    show sampleEILoanA.principal = 1000 from rfl,
    show sampleEILoanA.commission = 1/100 from rfl, q10, qr]

/-- C3 amended: the equal-principal summary does return
`round((total_interest + total_bsmv_all_rows + upfront_commission) /
(returned_maturity_years * principal) * 100)`; the equal-installment
summary instead counts the commission BSMV twice (once inside the BSMV
total and once inside the commission-row installment) and divides by the
unrounded maturity years, only the returned maturity being rounded. -/
theorem C3_all_in_rate_amended (L : EqualPrincipalLoan) (E : EqualInstallmentLoan)
    (sL sE : MaturitySummary)
    (hL : L.calculate_average_maturity_and_all_in_rate L.calculate_schedule = .ok sL)
    (hE : E.calculate_average_maturity_and_all_in_rate E.calculate_schedule = .ok sE) :
    sL.all_in_rate_percent =
      quantizeCents ((totalInterestRegular L.calculate_schedule +
        totalBsmvAllRows L.calculate_schedule + L.upfront_commission) /
        (sL.average_maturity_years * L.principal) * 100) ∧
    sE.average_maturity_years =
      quantizeCents (rawMaturityYears E.start_date E.calculate_schedule) ∧
    sE.all_in_rate_percent =
      quantizeCents ((totalInterestRegular E.calculate_schedule +
        totalBsmvAllRows E.calculate_schedule + E.upfront_commission +
        E.upfront_commission_bsmv) /
        (rawMaturityYears E.start_date E.calculate_schedule * E.principal) * 100) := by
  have keyL : sumBy (fun r => r.bsmv) (regularRows L.calculate_schedule) +
      sumBy (fun r => r.installment_amount) (rowZeroRows L.calculate_schedule) =
      totalBsmvAllRows L.calculate_schedule + L.upfront_commission := by
    unfold totalBsmvAllRows EqualPrincipalLoan.upfront_commission
    rw [ep_rowZero_schedule, ep_regular_schedule]
    conv_rhs => rw [EqualPrincipalLoan.calculate_schedule]
    rw [sumBy_append]
    by_cases hc : 0 < L.commission
    · simp only [if_pos hc]
      unfold commissionRow
      simp only [sumBy, List.map_cons, List.map_nil, List.sum_cons, List.sum_nil]
      rw [quantize_of_isCents (isCents_add (isCents_quantize _) (isCents_quantize _))]
      ring
    · simp only [if_neg hc]
      simp [sumBy]
  have keyE : sumBy (fun r => r.installment_amount) (rowZeroRows E.calculate_schedule) =
      E.upfront_commission + E.upfront_commission_bsmv := by
    unfold EqualInstallmentLoan.upfront_commission EqualInstallmentLoan.upfront_commission_bsmv
    rw [ei_rowZero_schedule]
    by_cases hc : 0 < E.commission
    · simp only [if_pos hc]
      unfold commissionRow
      simp only [sumBy, List.map_cons, List.map_nil, List.sum_cons, List.sum_nil]
      rw [quantize_of_isCents (isCents_add (isCents_quantize _) (isCents_quantize _))]
      ring
    · simp only [if_neg hc]
      simp [sumBy]
  simp only [EqualPrincipalLoan.calculate_average_maturity_and_all_in_rate] at hL
  simp only [EqualInstallmentLoan.calculate_average_maturity_and_all_in_rate] at hE
  split at hL
  · exact absurd hL (by simp)
  split at hL
  · exact absurd hL (by simp)
  split at hE
  · exact absurd hE (by simp)
  split at hE
  · exact absurd hE (by simp)
  rw [Except.ok.injEq] at hL hE
  subst hL
  subst hE
  have hnumL : sumBy (fun r => r.interest_payment) (regularRows L.calculate_schedule) +
      sumBy (fun r => r.bsmv) (regularRows L.calculate_schedule) +
      sumBy (fun r => r.installment_amount) (rowZeroRows L.calculate_schedule) =
      totalInterestRegular L.calculate_schedule +
      totalBsmvAllRows L.calculate_schedule + L.upfront_commission := by
    unfold totalInterestRegular
    linarith [keyL]
  have hnumE : sumBy (fun r => r.interest_payment) (regularRows E.calculate_schedule) +
      sumBy (fun r => r.bsmv) E.calculate_schedule +
      sumBy (fun r => r.installment_amount) (rowZeroRows E.calculate_schedule) =
      totalInterestRegular E.calculate_schedule +
      totalBsmvAllRows E.calculate_schedule + E.upfront_commission +
      E.upfront_commission_bsmv := by
    unfold totalInterestRegular totalBsmvAllRows
    linarith [keyE]
  refine ⟨?_, ?_, ?_⟩
  · dsimp only
    rw [hnumL]
  · dsimp only
    unfold rawMaturityYears
    rfl
  · dsimp only
    rw [hnumE]
    unfold rawMaturityYears
    rfl

/-- Witness for C3 amended at two concrete one-period commission loans. -/
theorem C3_all_in_rate_amended_witness :
    (MaturitySummary.mk (2/25) (3938/100)).all_in_rate_percent =
      quantizeCents ((totalInterestRegular sampleEPLoanC.calculate_schedule +
        totalBsmvAllRows sampleEPLoanC.calculate_schedule +
        sampleEPLoanC.upfront_commission) /
        ((MaturitySummary.mk (2/25) (3938/100)).average_maturity_years *
          sampleEPLoanC.principal) * 100) ∧
    (MaturitySummary.mk (2/25) (3893/100)).average_maturity_years =
      quantizeCents (rawMaturityYears sampleEILoanA.start_date
        sampleEILoanA.calculate_schedule) ∧
    (MaturitySummary.mk (2/25) (3893/100)).all_in_rate_percent =
      quantizeCents ((totalInterestRegular sampleEILoanA.calculate_schedule +
        totalBsmvAllRows sampleEILoanA.calculate_schedule +
        sampleEILoanA.upfront_commission + sampleEILoanA.upfront_commission_bsmv) /
        (rawMaturityYears sampleEILoanA.start_date sampleEILoanA.calculate_schedule *
          sampleEILoanA.principal) * 100) :=
  C3_all_in_rate_amended sampleEPLoanC sampleEILoanA ⟨2/25, 3938/100⟩ ⟨2/25, 3893/100⟩
    sampleEPLoanC_summary sampleEILoanA_summary

theorem freq_cases {freq : String} {fd : ℕ} (h : frequencyToDays freq = some fd) :
    (freq = "1m" ∧ fd = 30) ∨ (freq = "3m" ∧ fd = 90) ∨ (freq = "6m" ∧ fd = 180) := by
  unfold frequencyToDays at h
  split_ifs at h with h1 h3 h6
  · exact Or.inl ⟨h1, by simpa using h.symm⟩
  · exact Or.inr (Or.inl ⟨h3, by simpa using h.symm⟩)
  · exact Or.inr (Or.inr ⟨h6, by simpa using h.symm⟩)

theorem periodBankingDays_eq {ps : List PaymentPeriod} {bankDays k : ℕ}
    (hbank : ∀ p ∈ ps, p.banking_days = bankDays)
    (hinst : ∃ p ∈ ps, p.installment = k) :
    periodBankingDays ps k = bankDays := by
  obtain ⟨p, hp, hpk⟩ := hinst
  have hs : (ps.find? fun q => q.installment == k).isSome := by
    rw [List.find?_isSome]
    exact ⟨p, hp, by simp [hpk]⟩
  obtain ⟨q, hq⟩ := Option.isSome_iff_exists.mp hs
  unfold periodBankingDays
  rw [hq]
  simp [hbank q (List.mem_of_find?_eq_some hq)]

theorem generateSchedule_ok {start : Date} {term : ℕ} {freq : String}
    {isHol : Date → Bool} {fuel fd : ℕ} {ps : List PaymentPeriod}
    (hfd : frequencyToDays freq = some fd)
    (hgen : generateSchedule start term freq isHol fuel = .ok ps) :
    ps.length = term * 30 / fd ∧ (∀ p ∈ ps, p.banking_days = fd) ∧
      (∀ j, j < term * 30 / fd → ∃ p ∈ ps, p.installment = 1 + j) := by
  rcases freq_cases hfd with ⟨rfl, rfl⟩ | ⟨rfl, rfl⟩ | ⟨rfl, rfl⟩ <;>
    · simp only [generateSchedule, relativeDeltaMonths, frequencyToDays,
        String.reduceEq, reduceIte] at hgen
      split at hgen
      · rw [Except.ok.injEq] at hgen
        subst hgen
        rename_i l hsplit
        exact genPeriods_spec _ _ _ _ _ _ _ _ _ _ hsplit
      · exact absurd hgen (by simp)

/-- C10: regular rows of an equal-installment loan, and of an
equal-principal loan in fixed mode, report the fixed banking convention
day count that `frequencyToDays` assigns to their frequency (30, 90 or
180), regardless of the calendar gaps; only an equal-principal loan
built with `use_variable_accrual_days` reports the actual elapsed days
the calendar computed. -/
theorem C10_accrual_days_convention
    (p1 r1 c1 : ℚ) (sd1 : Date) (t1 : ℕ) (f1 : String) (b1 : ℚ)
    (ih1 : Date → Bool) (fu1 fd1 : ℕ) (E : EqualInstallmentLoan)
    (hfd1 : frequencyToDays f1 = some fd1)
    (hE : mkEqualInstallmentLoan p1 r1 c1 sd1 t1 f1 b1 ih1 fu1 = .ok E)
    (L2 : EqualPrincipalLoan) (fd2 : ℕ)
    (hv2 : L2.use_variable_accrual_days = false)
    (hfd2 : frequencyToDays L2.payment_frequency = some fd2)
    (p3 r3 c3 : ℚ) (sd3 : Date) (t3 : ℕ) (f3 : String) (b3 : ℚ)
    (ih3 : Date → Bool) (fu3 : ℕ) (L3 : EqualPrincipalLoan)
    (hL3 : mkEqualPrincipalLoan p3 r3 c3 sd3 t3 f3 b3 true ih3 fu3 = .ok L3) :
    (∀ r ∈ E.calculate_schedule, r.installment_number ≠ 0 →
      r.accrual_days = (fd1 : ℤ)) ∧
    (∀ r ∈ L2.calculate_schedule, r.installment_number ≠ 0 →
      r.accrual_days = (fd2 : ℤ)) ∧
    (∃ ps, generateSchedule sd3 t3 f3 ih3 fu3 = .ok ps ∧
      ∀ r ∈ L3.calculate_schedule, r.installment_number ≠ 0 →
        r.accrual_days = periodActualDays ps r.installment_number) := by
  refine ⟨?_, ?_, ?_⟩
  · unfold mkEqualInstallmentLoan at hE
    obtain ⟨ps, hgen, hGdef⟩ := except_map_ok _ _ _ hE
    obtain ⟨hlen, hbank, hinst⟩ := generateSchedule_ok hfd1 hgen
    subst hGdef
    intro r hmem hnum
    unfold EqualInstallmentLoan.calculate_schedule at hmem
    rcases List.mem_append.mp hmem with h | h
    · exfalso
      split at h
      · rw [List.mem_singleton] at h
        exact hnum (by rw [h]; rfl)
      · simp at h
    · obtain ⟨k, rem2, hk1, hk2, rfl⟩ := EqualInstallmentLoan.loop_mem _ _ _ _ r h
      have hkps : k < 1 + ps.length := hk2
      obtain ⟨pp, hpp, hppk⟩ := hinst (k - 1) (by omega)
      have hbd : periodBankingDays ps k = fd1 :=
        periodBankingDays_eq hbank ⟨pp, hpp, by omega⟩
      show (periodBankingDays ps k : ℤ) = (fd1 : ℤ)
      rw [hbd]
  · intro r hmem hnum
    unfold EqualPrincipalLoan.calculate_schedule at hmem
    rcases List.mem_append.mp hmem with h | h
    · exfalso
      split at h
      · rw [List.mem_singleton] at h
        exact hnum (by rw [h]; rfl)
      · simp at h
    · rw [EqualPrincipalLoan.loop_eq_map] at h
      obtain ⟨j, _, rfl⟩ := List.mem_map.mp h
      show L2.row_accrual_days (1 + j) = (fd2 : ℤ)
      unfold EqualPrincipalLoan.row_accrual_days
      rw [hv2]
      simp only [Bool.false_eq_true, if_false]
      unfold EqualPrincipalLoan.fixed_days
      rcases freq_cases hfd2 with ⟨hf, rfl⟩ | ⟨hf, rfl⟩ | ⟨hf, rfl⟩ <;>
        rw [hf] <;> simp
  · unfold mkEqualPrincipalLoan at hL3
    obtain ⟨ps, hgen, hdef⟩ := except_map_ok _ _ _ hL3
    subst hdef
    refine ⟨ps, hgen, ?_⟩
    intro r hmem hnum
    unfold EqualPrincipalLoan.calculate_schedule at hmem
    rcases List.mem_append.mp hmem with h | h
    · exfalso
      split at h
      · rw [List.mem_singleton] at h
        exact hnum (by rw [h]; rfl)
      · simp at h
    · rw [EqualPrincipalLoan.loop_eq_map] at h
      obtain ⟨j, _, rfl⟩ := List.mem_map.mp h
      rfl

/-- Witness for C10 at concrete calendar-built loans. -/
theorem C10_accrual_days_convention_witness :
    frequencyToDays "1m" = some 30 ∧
    mkEqualInstallmentLoan 1000 (1/50) 0 ⟨2024, 1, 10⟩ 2 "1m" (1/20)
      (fun _ => false) 10 = .ok mkSampleEILoan ∧
    sampleEPLoanB.use_variable_accrual_days = false ∧
    frequencyToDays sampleEPLoanB.payment_frequency = some 30 ∧
    mkEqualPrincipalLoan 1000 (1/50) 0 ⟨2024, 1, 10⟩ 2 "1m" (1/20) true
      (fun _ => false) 10 = .ok mkSampleEPLoanVar ∧
    ((∀ r ∈ mkSampleEILoan.calculate_schedule, r.installment_number ≠ 0 →
        r.accrual_days = ((30 : ℕ) : ℤ)) ∧
      (∀ r ∈ sampleEPLoanB.calculate_schedule, r.installment_number ≠ 0 →
        r.accrual_days = ((30 : ℕ) : ℤ)) ∧
      (∃ ps, generateSchedule ⟨2024, 1, 10⟩ 2 "1m" (fun _ => false) 10 = .ok ps ∧
        ∀ r ∈ mkSampleEPLoanVar.calculate_schedule, r.installment_number ≠ 0 →
          r.accrual_days = periodActualDays ps r.installment_number)) :=
  ⟨rfl, rfl, rfl, rfl, rfl,
    C10_accrual_days_convention 1000 (1/50) 0 ⟨2024, 1, 10⟩ 2 "1m" (1/20)
      (fun _ => false) 10 30 mkSampleEILoan rfl rfl sampleEPLoanB 30 rfl rfl
      1000 (1/50) 0 ⟨2024, 1, 10⟩ 2 "1m" (1/20) (fun _ => false) 10
      mkSampleEPLoanVar rfl⟩
